import Mathlib

/-!
A formal model of the dwarf-dis DWARF expression bytecode disassembler
(src/lib.rs and src/bin.rs), together with proofs about its opcode
decoder, its primitive readers and its sequence driver.

Bytes are modelled as natural numbers (a byte buffer holds values below
256), machine integers as Nat / Int. Rust behaviours that abort the
process — out-of-bounds slicing, a failed assert, Result::unwrap and
Option::expect on a failure, and the eager evaluation of an expect
message — are modelled by an explicit abort outcome called `panic`
below, kept distinct from the decoder's returned error value.
-/

namespace DwarfDis

/-- The error enum of src/lib.rs: `DwarfDisError::Decode(u8)` is its only
variant, carrying the unsupported leading opcode byte. -/
inductive DwarfDisError where
  | Decode : Nat → DwarfDisError
deriving DecidableEq

/-- The instruction enum `Op` of src/lib.rs, one variant per supported
opcode; u8/u16/u32/u64/usize operands become Nat, i8/i16/i32/i64/isize
operands become Int. -/
inductive Op where
  | Addr : Nat → Op
  | Deref : Op
  | Const1u : Nat → Op
  | Const1s : Int → Op
  | Const2u : Nat → Op
  | Const2s : Int → Op
  | Const4u : Nat → Op
  | Const4s : Int → Op
  | Const8u : Nat → Op
  | Const8s : Int → Op
  | Constu : Nat → Op
  | Consts : Int → Op
  | Dup : Op
  | Drop : Op
  | Over : Op
  | Pick : Nat → Op
  | Swap : Op
  | Rot : Op
  | Abs : Op
  | And : Op
  | Div : Op
  | Minus : Op
  | Mod : Op
  | Mul : Op
  | Neg : Op
  | Not : Op
  | Or : Op
  | Plus : Op
  | PlusConst : Nat → Op
  | Bra : Int → Op
  | Eq : Op
  | Ge : Op
  | Gt : Op
  | Le : Op
  | Lt : Op
  | Ne : Op
  | Shl : Op
  | Shr : Op
  | Shra : Op
  | Xor : Op
  | Skip : Int → Op
  | Lit : Nat → Op
  | Reg : Nat → Op
  | BReg : Nat → Int → Op
  | RegX : Nat → Op
  | BRegX : Nat → Int → Op
  | DerefSize : Nat → Op
  | Nop : Op
deriving DecidableEq

/-- `Op::mnem` of src/lib.rs: the textual mnemonic of an instruction. -/
def Op.mnem : Op → String
  | .Addr _ => "addr"
  | .Deref => "deref"
  | .Const1u _ => "const1u"
  | .Const1s _ => "const1s"
  | .Const2u _ => "const2u"
  | .Const2s _ => "const2s"
  | .Const4u _ => "const4u"
  | .Const4s _ => "const4s"
  | .Const8u _ => "const8u"
  | .Const8s _ => "const8s"
  | .Constu _ => "constu"
  | .Consts _ => "consts"
  | .Dup => "dup"
  | .Drop => "drop"
  | .Over => "over"
  | .Pick _ => "pick"
  | .Swap => "swap"
  | .Rot => "rot"
  | .Abs => "abs"
  | .And => "and"
  | .Div => "div"
  | .Minus => "minus"
  | .Mod => "mod"
  | .Mul => "mul"
  | .Neg => "neg"
  | .Not => "not"
  | .Or => "or"
  | .Plus => "plus"
  | .PlusConst _ => "plus_const"
  | .Bra _ => "bra"
  | .Eq => "eq"
  | .Ge => "ge"
  | .Gt => "gt"
  | .Le => "le"
  | .Lt => "lt"
  | .Ne => "ne"
  | .Shl => "shl"
  | .Shr => "shr"
  | .Shra => "shra"
  | .Xor => "xor"
  | .Skip _ => "skip"
  | .Lit _ => "lit"
  | .Reg _ => "reg"
  | .BReg _ _ => "breg"
  | .RegX _ => "regx"
  | .BRegX _ _ => "bregx"
  | .DerefSize _ => "deref_size"
  | .Nop => "nop"

/-- The constructor tag of an `Op` value, numbering the variants of the
enum in declaration order. Two `Op` values are built from the same
variant exactly when their tags agree; the tag forgets every operand. -/
def Op.ctorIdx : Op → Nat
  | .Addr _ => 0
  | .Deref => 1
  | .Const1u _ => 2
  | .Const1s _ => 3
  | .Const2u _ => 4
  | .Const2s _ => 5
  | .Const4u _ => 6
  | .Const4s _ => 7
  | .Const8u _ => 8
  | .Const8s _ => 9
  | .Constu _ => 10
  | .Consts _ => 11
  | .Dup => 12
  | .Drop => 13
  | .Over => 14
  | .Pick _ => 15
  | .Swap => 16
  | .Rot => 17
  | .Abs => 18
  | .And => 19
  | .Div => 20
  | .Minus => 21
  | .Mod => 22
  | .Mul => 23
  | .Neg => 24
  | .Not => 25
  | .Or => 26
  | .Plus => 27
  | .PlusConst _ => 28
  | .Bra _ => 29
  | .Eq => 30
  | .Ge => 31
  | .Gt => 32
  | .Le => 33
  | .Lt => 34
  | .Ne => 35
  | .Shl => 36
  | .Shr => 37
  | .Shra => 38
  | .Xor => 39
  | .Skip _ => 40
  | .Lit _ => 41
  | .Reg _ => 42
  | .BReg _ _ => 43
  | .RegX _ => 44
  | .BRegX _ _ => 45
  | .DerefSize _ => 46
  | .Nop => 47

/-- The mnemonic determined by a constructor tag alone. -/
def mnemOfIdx : Nat → String
  | 0 => "addr"
  | 1 => "deref"
  | 2 => "const1u"
  | 3 => "const1s"
  | 4 => "const2u"
  | 5 => "const2s"
  | 6 => "const4u"
  | 7 => "const4s"
  | 8 => "const8u"
  | 9 => "const8s"
  | 10 => "constu"
  | 11 => "consts"
  | 12 => "dup"
  | 13 => "drop"
  | 14 => "over"
  | 15 => "pick"
  | 16 => "swap"
  | 17 => "rot"
  | 18 => "abs"
  | 19 => "and"
  | 20 => "div"
  | 21 => "minus"
  | 22 => "mod"
  | 23 => "mul"
  | 24 => "neg"
  | 25 => "not"
  | 26 => "or"
  | 27 => "plus"
  | 28 => "plus_const"
  | 29 => "bra"
  | 30 => "eq"
  | 31 => "ge"
  | 32 => "gt"
  | 33 => "le"
  | 34 => "lt"
  | 35 => "ne"
  | 36 => "shl"
  | 37 => "shr"
  | 38 => "shra"
  | 39 => "xor"
  | 40 => "skip"
  | 41 => "lit"
  | 42 => "reg"
  | 43 => "breg"
  | 44 => "regx"
  | 45 => "bregx"
  | 46 => "deref_size"
  | 47 => "nop"
  | _ => ""

/-- The outcome of one call to `decode`: a returned `Ok((size, op))`, a
returned `Err(e)`, or a process abort (slice index out of bounds, failed
assert, or a fired `expect`). -/
inductive DOut where
  | ok : Nat → Op → DOut
  | err : DwarfDisError → DOut
  | panic : DOut
deriving DecidableEq

/-- `read_u8` of src/lib.rs: `bytecode[0]`, one byte consumed; indexing
an empty slice aborts. -/
def read_u8 : List Nat → Option (Nat × Nat)
  | b0 :: _ => some (1, b0)
  | _ => none

/-- `read_i8` of src/lib.rs: `bytecode[0] as i8`, twos complement. -/
def read_i8 : List Nat → Option (Nat × Int)
  | b0 :: _ => some (1, if b0 < 0x80 then (b0 : Int) else (b0 : Int) - 0x100)
  | _ => none

/-- `read_u16` of src/lib.rs: two bytes little endian; slicing a shorter
buffer aborts. -/
def read_u16 : List Nat → Option (Nat × Nat)
  | b0 :: b1 :: _ => some (2, b0 + b1 * 0x100)
  | _ => none

/-- `read_i16` of src/lib.rs: two bytes little endian, twos complement. -/
def read_i16 : List Nat → Option (Nat × Int)
  | b0 :: b1 :: _ =>
    some (2,
      if b0 + b1 * 0x100 < 0x8000 then ((b0 + b1 * 0x100 : Nat) : Int)
      else ((b0 + b1 * 0x100 : Nat) : Int) - 0x10000)
  | _ => none

/-- `read_u32` of src/lib.rs: four bytes little endian. -/
def read_u32 : List Nat → Option (Nat × Nat)
  | b0 :: b1 :: b2 :: b3 :: _ =>
    some (4, b0 + b1 * 0x100 + b2 * 0x10000 + b3 * 0x1000000)
  | _ => none

/-- `read_i32` of src/lib.rs: four bytes little endian, twos complement. -/
def read_i32 : List Nat → Option (Nat × Int)
  | b0 :: b1 :: b2 :: b3 :: _ =>
    some (4,
      if b0 + b1 * 0x100 + b2 * 0x10000 + b3 * 0x1000000 < 0x80000000 then
        ((b0 + b1 * 0x100 + b2 * 0x10000 + b3 * 0x1000000 : Nat) : Int)
      else
        ((b0 + b1 * 0x100 + b2 * 0x10000 + b3 * 0x1000000 : Nat) : Int) - 0x100000000)
  | _ => none

/-- `read_u64` of src/lib.rs: eight bytes little endian. -/
def read_u64 : List Nat → Option (Nat × Nat)
  | b0 :: b1 :: b2 :: b3 :: b4 :: b5 :: b6 :: b7 :: _ =>
    some (8, b0 + b1 * 0x100 + b2 * 0x10000 + b3 * 0x1000000
      + b4 * 0x100000000 + b5 * 0x10000000000 + b6 * 0x1000000000000
      + b7 * 0x100000000000000)
  | _ => none

/-- `read_i64` of src/lib.rs: eight bytes little endian, twos
complement. -/
def read_i64 : List Nat → Option (Nat × Int)
  | b0 :: b1 :: b2 :: b3 :: b4 :: b5 :: b6 :: b7 :: _ =>
    some (8,
      if b0 + b1 * 0x100 + b2 * 0x10000 + b3 * 0x1000000
          + b4 * 0x100000000 + b5 * 0x10000000000 + b6 * 0x1000000000000
          + b7 * 0x100000000000000 < 0x8000000000000000 then
        ((b0 + b1 * 0x100 + b2 * 0x10000 + b3 * 0x1000000
          + b4 * 0x100000000 + b5 * 0x10000000000 + b6 * 0x1000000000000
          + b7 * 0x100000000000000 : Nat) : Int)
      else
        ((b0 + b1 * 0x100 + b2 * 0x10000 + b3 * 0x1000000
          + b4 * 0x100000000 + b5 * 0x10000000000 + b6 * 0x1000000000000
          + b7 * 0x100000000000000 : Nat) : Int) - 0x10000000000000000)
  | _ => none

/-- Modelled from the spec: the unsigned LEB128 reader of the external
nano_leb128 dependency, whose source is not part of this repository.
Per the spec it accumulates 7 bits per byte, least significant group
first, terminates at the first byte with high bit clear, and fails if
the slice runs out before termination or if the encoding would overflow
the 64-bit result. Returns (value, bytes consumed). -/
def ulebLoop : List Nat → Nat → Nat → Option (Nat × Nat)
  | [], _, _ => none
  | b :: rest, shift, acc =>
    if 64 ≤ shift then none
    else if b < 0x80 then
      if acc + b * 2 ^ shift < 2 ^ 64 then some (acc + b * 2 ^ shift, shift / 7 + 1)
      else none
    else ulebLoop rest (shift + 7) (acc + b % 0x80 * 2 ^ shift)

/-- Modelled from the spec: the signed LEB128 reader of the external
nano_leb128 dependency (not part of this repository). Same grouping as
the unsigned reader; the final byte's bit 6 is sign extended into the
high-order bits; fails when the slice runs out before the terminating
byte or the value overflows a 64-bit signed integer. -/
def slebLoop : List Nat → Nat → Nat → Option (Int × Nat)
  | [], _, _ => none
  | b :: rest, shift, acc =>
    if 64 ≤ shift then none
    else if b < 0x80 then
      if -(2 ^ 63) ≤ ((acc + b * 2 ^ shift : Nat) : Int)
            - (if 0x40 ≤ b then (2 ^ (shift + 7) : Int) else 0)
          ∧ ((acc + b * 2 ^ shift : Nat) : Int)
            - (if 0x40 ≤ b then (2 ^ (shift + 7) : Int) else 0) < 2 ^ 63 then
        some (((acc + b * 2 ^ shift : Nat) : Int)
          - (if 0x40 ≤ b then (2 ^ (shift + 7) : Int) else 0), shift / 7 + 1)
      else none
    else slebLoop rest (shift + 7) (acc + b % 0x80 * 2 ^ shift)

/-- The length in bytes of the unsigned LEB128 encoding at the head of a
buffer (zero when there is none). -/
def ulebLen (l : List Nat) : Nat :=
  match ulebLoop l 0 0 with
  | some (_, s) => s
  | none => 0

/-- The length in bytes of the signed LEB128 encoding at the head of a
buffer (zero when there is none). -/
def slebLen (l : List Nat) : Nat :=
  match slebLoop l 0 0 with
  | some (_, s) => s
  | none => 0

/-- `read_uleb128` of src/lib.rs. Before `expect` can inspect the read
result, Rust evaluates the message argument, which slices the first ten
bytes of the input: on any buffer shorter than ten bytes the call
aborts, regardless of whether the LEB128 read itself succeeded. When
ten or more bytes are present a failed read aborts through `expect`. -/
def read_uleb128 (bytecode : List Nat) : Option (Nat × Nat) :=
  if bytecode.length < 10 then none
  else
    match ulebLoop bytecode 0 0 with
    | some (val, s) => some (s, val)
    | none => none

/-- `read_sleb128` of src/lib.rs, with the same eagerly evaluated
ten-byte message slice as `read_uleb128`. -/
def read_sleb128 (bytecode : List Nat) : Option (Nat × Int) :=
  if bytecode.length < 10 then none
  else
    match slebLoop bytecode 0 0 with
    | some (val, s) => some (s, val)
    | none => none

/-- Sequencing of a primitive read inside `decode`: a read that aborts
makes the whole call abort, otherwise decoding continues with the
(bytes consumed, value) pair. -/
def bindRead {α : Type} (r : Option α) (k : α → DOut) : DOut :=
  match r with
  | some v => k v
  | none => DOut.panic

/-- `decode` of src/lib.rs: dispatch on the leading opcode byte of the
buffer, in the order of the source's match arms; `sz` starts at 1 and
each operand read adds its consumed byte count. The `0x94` arm models
the source's `assert!([1, 2, 4, 8].contains(&deref_sz))`. Reading
`bytecode[0]` of an empty buffer aborts. -/
def decode (bytecode : List Nat) : DOut :=
  match bytecode with
  | [] => DOut.panic
  | op :: rest =>
    if op = 0x03 then
      bindRead (read_u64 rest) (fun p => DOut.ok (1 + p.1) (Op.Addr p.2))
    else if op = 0x06 then DOut.ok 1 Op.Deref
    else if op = 0x08 then
      bindRead (read_u8 rest) (fun p => DOut.ok (1 + p.1) (Op.Const1u p.2))
    else if op = 0x09 then
      bindRead (read_i8 rest) (fun p => DOut.ok (1 + p.1) (Op.Const1s p.2))
    else if op = 0x0a then
      bindRead (read_u16 rest) (fun p => DOut.ok (1 + p.1) (Op.Const2u p.2))
    else if op = 0x0b then
      bindRead (read_i16 rest) (fun p => DOut.ok (1 + p.1) (Op.Const2s p.2))
    else if op = 0x0c then
      bindRead (read_u32 rest) (fun p => DOut.ok (1 + p.1) (Op.Const4u p.2))
    else if op = 0x0d then
      bindRead (read_i32 rest) (fun p => DOut.ok (1 + p.1) (Op.Const4s p.2))
    else if op = 0x0e then
      bindRead (read_u64 rest) (fun p => DOut.ok (1 + p.1) (Op.Const8u p.2))
    else if op = 0x0f then
      bindRead (read_i64 rest) (fun p => DOut.ok (1 + p.1) (Op.Const8s p.2))
    else if op = 0x10 then
      bindRead (read_uleb128 rest) (fun p => DOut.ok (1 + p.1) (Op.Constu p.2))
    else if op = 0x11 then
      bindRead (read_sleb128 rest) (fun p => DOut.ok (1 + p.1) (Op.Consts p.2))
    else if op = 0x12 then DOut.ok 1 Op.Dup
    else if op = 0x13 then DOut.ok 1 Op.Drop
    else if op = 0x14 then DOut.ok 1 Op.Over
    else if op = 0x15 then
      bindRead (read_u8 rest) (fun p => DOut.ok (1 + p.1) (Op.Pick p.2))
    else if op = 0x16 then DOut.ok 1 Op.Swap
    else if op = 0x17 then DOut.ok 1 Op.Rot
    else if op = 0x19 then DOut.ok 1 Op.Abs
    else if op = 0x1a then DOut.ok 1 Op.And
    else if op = 0x1b then DOut.ok 1 Op.Div
    else if op = 0x1c then DOut.ok 1 Op.Minus
    else if op = 0x1d then DOut.ok 1 Op.Mod
    else if op = 0x1e then DOut.ok 1 Op.Mul
    else if op = 0x1f then DOut.ok 1 Op.Neg
    else if op = 0x20 then DOut.ok 1 Op.Not
    else if op = 0x21 then DOut.ok 1 Op.Or
    else if op = 0x22 then DOut.ok 1 Op.Plus
    else if op = 0x23 then
      bindRead (read_uleb128 rest) (fun p => DOut.ok (1 + p.1) (Op.PlusConst p.2))
    else if op = 0x24 then DOut.ok 1 Op.Shl
    else if op = 0x25 then DOut.ok 1 Op.Shr
    else if op = 0x26 then DOut.ok 1 Op.Shra
    else if op = 0x27 then DOut.ok 1 Op.Xor
    else if op = 0x28 then
      bindRead (read_i16 rest) (fun p => DOut.ok (1 + p.1) (Op.Bra p.2))
    else if op = 0x29 then DOut.ok 1 Op.Eq
    else if op = 0x2a then DOut.ok 1 Op.Ge
    else if op = 0x2b then DOut.ok 1 Op.Gt
    else if op = 0x2c then DOut.ok 1 Op.Le
    else if op = 0x2d then DOut.ok 1 Op.Lt
    else if op = 0x2e then DOut.ok 1 Op.Ne
    else if op = 0x2f then
      bindRead (read_i16 rest) (fun p => DOut.ok (1 + p.1) (Op.Skip p.2))
    else if 0x30 ≤ op ∧ op ≤ 0x4f then DOut.ok 1 (Op.Lit (op - 0x30))
    else if 0x50 ≤ op ∧ op ≤ 0x6f then DOut.ok 1 (Op.Reg (op - 0x50))
    else if 0x70 ≤ op ∧ op ≤ 0x8f then
      bindRead (read_sleb128 rest) (fun p => DOut.ok (1 + p.1) (Op.BReg (op - 0x70) p.2))
    else if op = 0x90 then
      bindRead (read_uleb128 rest) (fun p => DOut.ok (1 + p.1) (Op.RegX p.2))
    else if op = 0x92 then
      bindRead (read_uleb128 rest) (fun p =>
        bindRead (read_sleb128 (rest.drop p.1)) (fun q =>
          DOut.ok (1 + p.1 + q.1) (Op.BRegX p.2 q.2)))
    else if op = 0x94 then
      bindRead (read_u8 rest) (fun p =>
        if p.2 ∈ ([1, 2, 4, 8] : List Nat) then DOut.ok (1 + p.1) (Op.DerefSize p.2)
        else DOut.panic)
    else if op = 0x96 then DOut.ok 1 Op.Nop
    else DOut.err (DwarfDisError.Decode op)

/-- The set of leading bytes handled by an arm of `decode`'s match other
than the wildcard arm: the listed single opcodes together with the
contiguous literal, register and base-register ranges 0x30–0x8f. -/
def supported (b : Nat) : Bool :=
  decide (b ∈ ([0x03, 0x06, 0x08, 0x09, 0x0a, 0x0b, 0x0c, 0x0d, 0x0e, 0x0f,
    0x10, 0x11, 0x12, 0x13, 0x14, 0x15, 0x16, 0x17, 0x19, 0x1a, 0x1b, 0x1c,
    0x1d, 0x1e, 0x1f, 0x20, 0x21, 0x22, 0x23, 0x24, 0x25, 0x26, 0x27, 0x28,
    0x29, 0x2a, 0x2b, 0x2c, 0x2d, 0x2e, 0x2f, 0x90, 0x92, 0x94, 0x96] : List Nat))
  || (decide (0x30 ≤ b) && decide (b ≤ 0x8f))

/-- The number of operand bytes mandated for a decoded instruction: the
fixed operand width of fixed-width opcodes, the length of the LEB128
encoding(s) found after the opcode byte for variable-length ones, and
zero for operand-less, literal and register opcodes. `rest` is the
buffer after the opcode byte. -/
def operandBytes (op : Op) (rest : List Nat) : Nat :=
  match op with
  | .Addr _ => 8
  | .Deref => 0
  | .Const1u _ => 1
  | .Const1s _ => 1
  | .Const2u _ => 2
  | .Const2s _ => 2
  | .Const4u _ => 4
  | .Const4s _ => 4
  | .Const8u _ => 8
  | .Const8s _ => 8
  | .Constu _ => ulebLen rest
  | .Consts _ => slebLen rest
  | .Dup => 0
  | .Drop => 0
  | .Over => 0
  | .Pick _ => 1
  | .Swap => 0
  | .Rot => 0
  | .Abs => 0
  | .And => 0
  | .Div => 0
  | .Minus => 0
  | .Mod => 0
  | .Mul => 0
  | .Neg => 0
  | .Not => 0
  | .Or => 0
  | .Plus => 0
  | .PlusConst _ => ulebLen rest
  | .Bra _ => 2
  | .Eq => 0
  | .Ge => 0
  | .Gt => 0
  | .Le => 0
  | .Lt => 0
  | .Ne => 0
  | .Shl => 0
  | .Shr => 0
  | .Shra => 0
  | .Xor => 0
  | .Skip _ => 2
  | .Lit _ => 0
  | .Reg _ => 0
  | .BReg _ _ => slebLen rest
  | .RegX _ => ulebLen rest
  | .BRegX _ _ => ulebLen rest + slebLen (rest.drop (ulebLen rest))
  | .DerefSize _ => 1
  | .Nop => 0

/-- The sequence driver of src/bin.rs with explicit fuel: starting at
`pc`, stop once `pc` reaches the buffer length, otherwise decode at
`pc`, record `(pc, op)`, and advance by the reported size. A decode
error is unwrapped (`.unwrap()`), so any non-Ok decode aborts the run;
`none` is the abort outcome. The fuel only bounds the recursion and is
chosen large enough to never run out on the runs we reason about. -/
def disasmAux : Nat → List Nat → Nat → Option (List (Nat × Op))
  | 0, _, _ => none
  | fuel + 1, buf, pc =>
    if buf.length ≤ pc then some []
    else
      match decode (buf.drop pc) with
      | DOut.ok sz op =>
        match disasmAux fuel buf (pc + sz) with
        | some recs => some ((pc, op) :: recs)
        | none => none
      | _ => none

/-- The whole-buffer run of the sequence driver of src/bin.rs. -/
def disassemble (buf : List Nat) : Option (List (Nat × Op)) :=
  disasmAux (buf.length + 1) buf 0

/-- `chunksWF chunks rest` states that `rest` is covered by the given
instruction chunks: decoding at the start of `rest` succeeds and
consumes exactly the first chunk, and so on, with nothing left at the
end. -/
def chunksWF : List (List Nat) → List Nat → Bool
  | [], rest => rest.isEmpty
  | c :: cs, rest =>
    (match decode rest with
     | DOut.ok sz _ => decide (sz = c.length)
     | _ => false)
    && chunksWF cs (rest.drop c.length)

/-- The starting offsets of a list of instruction chunks laid out one
after another from offset `pc`. -/
def chunkOffsets : List (List Nat) → Nat → List Nat
  | [], _ => []
  | c :: cs, pc => pc :: chunkOffsets cs (pc + c.length)

/-! ## Basic lemmas about the primitive readers -/

theorem decode_nil : decode [] = DOut.panic := rfl

theorem bindRead_ok {α : Type} {r : Option α} {k : α → DOut} {sz : Nat} {op : Op}
    (h : bindRead r k = DOut.ok sz op) : ∃ v, r = some v ∧ k v = DOut.ok sz op := by
  cases r with
  | none => cases h
  | some v => exact ⟨v, rfl, h⟩

theorem read_u8_fst {l : List Nat} {p : Nat × Nat} (h : read_u8 l = some p) :
    p.1 = 1 := by
  rcases l with _ | ⟨b0, t⟩
  · cases h
  · cases h; rfl

theorem read_i8_fst {l : List Nat} {p : Nat × Int} (h : read_i8 l = some p) :
    p.1 = 1 := by
  rcases l with _ | ⟨b0, t⟩
  · cases h
  · cases h; rfl

theorem read_u16_fst {l : List Nat} {p : Nat × Nat} (h : read_u16 l = some p) :
    p.1 = 2 := by
  rcases l with _ | ⟨b0, _ | ⟨b1, t⟩⟩
  · cases h
  · cases h
  · cases h; rfl

theorem read_i16_fst {l : List Nat} {p : Nat × Int} (h : read_i16 l = some p) :
    p.1 = 2 := by
  rcases l with _ | ⟨b0, _ | ⟨b1, t⟩⟩
  · cases h
  · cases h
  · cases h; rfl

theorem read_u32_fst {l : List Nat} {p : Nat × Nat} (h : read_u32 l = some p) :
    p.1 = 4 := by
  rcases l with _ | ⟨b0, _ | ⟨b1, _ | ⟨b2, _ | ⟨b3, t⟩⟩⟩⟩
  · cases h
  · cases h
  · cases h
  · cases h
  · cases h; rfl

theorem read_i32_fst {l : List Nat} {p : Nat × Int} (h : read_i32 l = some p) :
    p.1 = 4 := by
  rcases l with _ | ⟨b0, _ | ⟨b1, _ | ⟨b2, _ | ⟨b3, t⟩⟩⟩⟩
  · cases h
  · cases h
  · cases h
  · cases h
  · cases h; rfl

theorem read_u64_fst {l : List Nat} {p : Nat × Nat} (h : read_u64 l = some p) :
    p.1 = 8 := by
  rcases l with _ | ⟨b0, _ | ⟨b1, _ | ⟨b2, _ | ⟨b3, _ | ⟨b4, _ | ⟨b5, _ | ⟨b6, _ | ⟨b7, t⟩⟩⟩⟩⟩⟩⟩⟩
  · cases h
  · cases h
  · cases h
  · cases h
  · cases h
  · cases h
  · cases h
  · cases h
  · cases h; rfl

theorem read_i64_fst {l : List Nat} {p : Nat × Int} (h : read_i64 l = some p) :
    p.1 = 8 := by
  rcases l with _ | ⟨b0, _ | ⟨b1, _ | ⟨b2, _ | ⟨b3, _ | ⟨b4, _ | ⟨b5, _ | ⟨b6, _ | ⟨b7, t⟩⟩⟩⟩⟩⟩⟩⟩
  · cases h
  · cases h
  · cases h
  · cases h
  · cases h
  · cases h
  · cases h
  · cases h
  · cases h; rfl

theorem read_uleb128_fst {l : List Nat} {p : Nat × Nat}
    (h : read_uleb128 l = some p) : p.1 = ulebLen l := by
  unfold read_uleb128 at h
  split_ifs at h
  rcases hu : ulebLoop l 0 0 with _ | ⟨v, s⟩ <;> rw [hu] at h
  · cases h
  · cases h
    simp [ulebLen, hu]

theorem read_sleb128_fst {l : List Nat} {p : Nat × Int}
    (h : read_sleb128 l = some p) : p.1 = slebLen l := by
  unfold read_sleb128 at h
  split_ifs at h
  rcases hu : slebLoop l 0 0 with _ | ⟨v, s⟩ <;> rw [hu] at h
  · cases h
  · cases h
    simp [slebLen, hu]

theorem read_uleb128_short {l : List Nat} (h : l.length < 10) :
    read_uleb128 l = none := by
  unfold read_uleb128
  rw [if_pos h]

theorem read_sleb128_short {l : List Nat} (h : l.length < 10) :
    read_sleb128 l = none := by
  unfold read_sleb128
  rw [if_pos h]

/-! ## The size returned by a successful decode -/

set_option maxHeartbeats 2000000 in
theorem decode_size_eq {buf : List Nat} {sz : Nat} {op : Op}
    (h : decode buf = DOut.ok sz op) :
    1 ≤ sz ∧ sz = 1 + operandBytes op (buf.drop 1) := by
  unfold decode at h
  split at h
  · cases h
  · rename_i bytecode b rest
    simp only [List.drop_succ_cons, List.drop_zero]
    by_cases h03 : b = 0x03
    · rw [if_pos h03] at h
      obtain ⟨p, hr, h⟩ := bindRead_ok h
      injection h with h1 h2
      subst h1; subst h2
      exact ⟨Nat.le_add_right 1 p.1, by simp [operandBytes, read_u64_fst hr]⟩
    rw [if_neg h03] at h
    by_cases h06 : b = 0x06
    · rw [if_pos h06] at h
      injection h with h1 h2
      subst h1; subst h2
      exact ⟨Nat.le_refl 1, rfl⟩
    rw [if_neg h06] at h
    by_cases h08 : b = 0x08
    · rw [if_pos h08] at h
      obtain ⟨p, hr, h⟩ := bindRead_ok h
      injection h with h1 h2
      subst h1; subst h2
      exact ⟨Nat.le_add_right 1 p.1, by simp [operandBytes, read_u8_fst hr]⟩
    rw [if_neg h08] at h
    by_cases h09 : b = 0x09
    · rw [if_pos h09] at h
      obtain ⟨p, hr, h⟩ := bindRead_ok h
      injection h with h1 h2
      subst h1; subst h2
      exact ⟨Nat.le_add_right 1 p.1, by simp [operandBytes, read_i8_fst hr]⟩
    rw [if_neg h09] at h
    by_cases h0a : b = 0x0a
    · rw [if_pos h0a] at h
      obtain ⟨p, hr, h⟩ := bindRead_ok h
      injection h with h1 h2
      subst h1; subst h2
      exact ⟨Nat.le_add_right 1 p.1, by simp [operandBytes, read_u16_fst hr]⟩
    rw [if_neg h0a] at h
    by_cases h0b : b = 0x0b
    · rw [if_pos h0b] at h
      obtain ⟨p, hr, h⟩ := bindRead_ok h
      injection h with h1 h2
      subst h1; subst h2
      exact ⟨Nat.le_add_right 1 p.1, by simp [operandBytes, read_i16_fst hr]⟩
    rw [if_neg h0b] at h
    by_cases h0c : b = 0x0c
    · rw [if_pos h0c] at h
      obtain ⟨p, hr, h⟩ := bindRead_ok h
      injection h with h1 h2
      subst h1; subst h2
      exact ⟨Nat.le_add_right 1 p.1, by simp [operandBytes, read_u32_fst hr]⟩
    rw [if_neg h0c] at h
    by_cases h0d : b = 0x0d
    · rw [if_pos h0d] at h
      obtain ⟨p, hr, h⟩ := bindRead_ok h
      injection h with h1 h2
      subst h1; subst h2
      exact ⟨Nat.le_add_right 1 p.1, by simp [operandBytes, read_i32_fst hr]⟩
    rw [if_neg h0d] at h
    by_cases h0e : b = 0x0e
    · rw [if_pos h0e] at h
      obtain ⟨p, hr, h⟩ := bindRead_ok h
      injection h with h1 h2
      subst h1; subst h2
      exact ⟨Nat.le_add_right 1 p.1, by simp [operandBytes, read_u64_fst hr]⟩
    rw [if_neg h0e] at h
    by_cases h0f : b = 0x0f
    · rw [if_pos h0f] at h
      obtain ⟨p, hr, h⟩ := bindRead_ok h
      injection h with h1 h2
      subst h1; subst h2
      exact ⟨Nat.le_add_right 1 p.1, by simp [operandBytes, read_i64_fst hr]⟩
    rw [if_neg h0f] at h
    by_cases h10 : b = 0x10
    · rw [if_pos h10] at h
      obtain ⟨p, hr, h⟩ := bindRead_ok h
      injection h with h1 h2
      subst h1; subst h2
      exact ⟨Nat.le_add_right 1 p.1, by simp [operandBytes, read_uleb128_fst hr]⟩
    rw [if_neg h10] at h
    by_cases h11 : b = 0x11
    · rw [if_pos h11] at h
      obtain ⟨p, hr, h⟩ := bindRead_ok h
      injection h with h1 h2
      subst h1; subst h2
      exact ⟨Nat.le_add_right 1 p.1, by simp [operandBytes, read_sleb128_fst hr]⟩
    rw [if_neg h11] at h
    by_cases h12 : b = 0x12
    · rw [if_pos h12] at h
      injection h with h1 h2
      subst h1; subst h2
      exact ⟨Nat.le_refl 1, rfl⟩
    rw [if_neg h12] at h
    by_cases h13 : b = 0x13
    · rw [if_pos h13] at h
      injection h with h1 h2
      subst h1; subst h2
      exact ⟨Nat.le_refl 1, rfl⟩
    rw [if_neg h13] at h
    by_cases h14 : b = 0x14
    · rw [if_pos h14] at h
      injection h with h1 h2
      subst h1; subst h2
      exact ⟨Nat.le_refl 1, rfl⟩
    rw [if_neg h14] at h
    by_cases h15 : b = 0x15
    · rw [if_pos h15] at h
      obtain ⟨p, hr, h⟩ := bindRead_ok h
      injection h with h1 h2
      subst h1; subst h2
      exact ⟨Nat.le_add_right 1 p.1, by simp [operandBytes, read_u8_fst hr]⟩
    rw [if_neg h15] at h
    by_cases h16 : b = 0x16
    · rw [if_pos h16] at h
      injection h with h1 h2
      subst h1; subst h2
      exact ⟨Nat.le_refl 1, rfl⟩
    rw [if_neg h16] at h
    by_cases h17 : b = 0x17
    · rw [if_pos h17] at h
      injection h with h1 h2
      subst h1; subst h2
      exact ⟨Nat.le_refl 1, rfl⟩
    rw [if_neg h17] at h
    by_cases h19 : b = 0x19
    · rw [if_pos h19] at h
      injection h with h1 h2
      subst h1; subst h2
      exact ⟨Nat.le_refl 1, rfl⟩
    rw [if_neg h19] at h
    by_cases h1a : b = 0x1a
    · rw [if_pos h1a] at h
      injection h with h1 h2
      subst h1; subst h2
      exact ⟨Nat.le_refl 1, rfl⟩
    rw [if_neg h1a] at h
    by_cases h1b : b = 0x1b
    · rw [if_pos h1b] at h
      injection h with h1 h2
      subst h1; subst h2
      exact ⟨Nat.le_refl 1, rfl⟩
    rw [if_neg h1b] at h
    by_cases h1c : b = 0x1c
    · rw [if_pos h1c] at h
      injection h with h1 h2
      subst h1; subst h2
      exact ⟨Nat.le_refl 1, rfl⟩
    rw [if_neg h1c] at h
    by_cases h1d : b = 0x1d
    · rw [if_pos h1d] at h
      injection h with h1 h2
      subst h1; subst h2
      exact ⟨Nat.le_refl 1, rfl⟩
    rw [if_neg h1d] at h
    by_cases h1e : b = 0x1e
    · rw [if_pos h1e] at h
      injection h with h1 h2
      subst h1; subst h2
      exact ⟨Nat.le_refl 1, rfl⟩
    rw [if_neg h1e] at h
    by_cases h1f : b = 0x1f
    · rw [if_pos h1f] at h
      injection h with h1 h2
      subst h1; subst h2
      exact ⟨Nat.le_refl 1, rfl⟩
    rw [if_neg h1f] at h
    by_cases h20 : b = 0x20
    · rw [if_pos h20] at h
      injection h with h1 h2
      subst h1; subst h2
      exact ⟨Nat.le_refl 1, rfl⟩
    rw [if_neg h20] at h
    by_cases h21 : b = 0x21
    · rw [if_pos h21] at h
      injection h with h1 h2
      subst h1; subst h2
      exact ⟨Nat.le_refl 1, rfl⟩
    rw [if_neg h21] at h
    by_cases h22 : b = 0x22
    · rw [if_pos h22] at h
      injection h with h1 h2
      subst h1; subst h2
      exact ⟨Nat.le_refl 1, rfl⟩
    rw [if_neg h22] at h
    by_cases h23 : b = 0x23
    · rw [if_pos h23] at h
      obtain ⟨p, hr, h⟩ := bindRead_ok h
      injection h with h1 h2
      subst h1; subst h2
      exact ⟨Nat.le_add_right 1 p.1, by simp [operandBytes, read_uleb128_fst hr]⟩
    rw [if_neg h23] at h
    by_cases h24 : b = 0x24
    · rw [if_pos h24] at h
      injection h with h1 h2
      subst h1; subst h2
      exact ⟨Nat.le_refl 1, rfl⟩
    rw [if_neg h24] at h
    by_cases h25 : b = 0x25
    · rw [if_pos h25] at h
      injection h with h1 h2
      subst h1; subst h2
      exact ⟨Nat.le_refl 1, rfl⟩
    rw [if_neg h25] at h
    by_cases h26 : b = 0x26
    · rw [if_pos h26] at h
      injection h with h1 h2
      subst h1; subst h2
      exact ⟨Nat.le_refl 1, rfl⟩
    rw [if_neg h26] at h
    by_cases h27 : b = 0x27
    · rw [if_pos h27] at h
      injection h with h1 h2
      subst h1; subst h2
      exact ⟨Nat.le_refl 1, rfl⟩
    rw [if_neg h27] at h
    by_cases h28 : b = 0x28
    · rw [if_pos h28] at h
      obtain ⟨p, hr, h⟩ := bindRead_ok h
      injection h with h1 h2
      subst h1; subst h2
      exact ⟨Nat.le_add_right 1 p.1, by simp [operandBytes, read_i16_fst hr]⟩
    rw [if_neg h28] at h
    by_cases h29 : b = 0x29
    · rw [if_pos h29] at h
      injection h with h1 h2
      subst h1; subst h2
      exact ⟨Nat.le_refl 1, rfl⟩
    rw [if_neg h29] at h
    by_cases h2a : b = 0x2a
    · rw [if_pos h2a] at h
      injection h with h1 h2
      subst h1; subst h2
      exact ⟨Nat.le_refl 1, rfl⟩
    rw [if_neg h2a] at h
    by_cases h2b : b = 0x2b
    · rw [if_pos h2b] at h
      injection h with h1 h2
      subst h1; subst h2
      exact ⟨Nat.le_refl 1, rfl⟩
    rw [if_neg h2b] at h
    by_cases h2c : b = 0x2c
    · rw [if_pos h2c] at h
      injection h with h1 h2
      subst h1; subst h2
      exact ⟨Nat.le_refl 1, rfl⟩
    rw [if_neg h2c] at h
    by_cases h2d : b = 0x2d
    · rw [if_pos h2d] at h
      injection h with h1 h2
      subst h1; subst h2
      exact ⟨Nat.le_refl 1, rfl⟩
    rw [if_neg h2d] at h
    by_cases h2e : b = 0x2e
    · rw [if_pos h2e] at h
      injection h with h1 h2
      subst h1; subst h2
      exact ⟨Nat.le_refl 1, rfl⟩
    rw [if_neg h2e] at h
    by_cases h2f : b = 0x2f
    · rw [if_pos h2f] at h
      obtain ⟨p, hr, h⟩ := bindRead_ok h
      injection h with h1 h2
      subst h1; subst h2
      exact ⟨Nat.le_add_right 1 p.1, by simp [operandBytes, read_i16_fst hr]⟩
    rw [if_neg h2f] at h
    by_cases hlit : 0x30 ≤ b ∧ b ≤ 0x4f
    · rw [if_pos hlit] at h
      injection h with h1 h2
      subst h1; subst h2
      exact ⟨Nat.le_refl 1, rfl⟩
    rw [if_neg hlit] at h
    by_cases hreg : 0x50 ≤ b ∧ b ≤ 0x6f
    · rw [if_pos hreg] at h
      injection h with h1 h2
      subst h1; subst h2
      exact ⟨Nat.le_refl 1, rfl⟩
    rw [if_neg hreg] at h
    by_cases hbreg : 0x70 ≤ b ∧ b ≤ 0x8f
    · rw [if_pos hbreg] at h
      obtain ⟨p, hr, h⟩ := bindRead_ok h
      injection h with h1 h2
      subst h1; subst h2
      exact ⟨Nat.le_add_right 1 p.1, by simp [operandBytes, read_sleb128_fst hr]⟩
    rw [if_neg hbreg] at h
    by_cases h90 : b = 0x90
    · rw [if_pos h90] at h
      obtain ⟨p, hr, h⟩ := bindRead_ok h
      injection h with h1 h2
      subst h1; subst h2
      exact ⟨Nat.le_add_right 1 p.1, by simp [operandBytes, read_uleb128_fst hr]⟩
    rw [if_neg h90] at h
    by_cases h92 : b = 0x92
    · rw [if_pos h92] at h
      obtain ⟨p, hp, h⟩ := bindRead_ok h
      obtain ⟨q, hq, h⟩ := bindRead_ok h
      injection h with h1 h2
      subst h1; subst h2
      refine ⟨by omega, ?_⟩
      have e1 := read_uleb128_fst hp
      have e2 := read_sleb128_fst hq
      rw [e1] at e2
      simp only [operandBytes]
      omega
    rw [if_neg h92] at h
    by_cases h94 : b = 0x94
    · rw [if_pos h94] at h
      obtain ⟨p, hr, h⟩ := bindRead_ok h
      by_cases hv : p.2 ∈ ([1, 2, 4, 8] : List Nat)
      · rw [if_pos hv] at h
        injection h with h1 h2
        subst h1; subst h2
        exact ⟨Nat.le_add_right 1 p.1, by simp [operandBytes, read_u8_fst hr]⟩
      · rw [if_neg hv] at h
        cases h
    rw [if_neg h94] at h
    by_cases h96 : b = 0x96
    · rw [if_pos h96] at h
      injection h with h1 h2
      subst h1; subst h2
      exact ⟨Nat.le_refl 1, rfl⟩
    rw [if_neg h96] at h
    cases h

/-! ## Helper lemmas about decode and the driver -/

theorem decode_ok_ne_nil {l : List Nat} {sz : Nat} {op : Op}
    (h : decode l = DOut.ok sz op) : l ≠ [] := by
  intro e
  rw [e] at h
  cases h

theorem decode_breg_eq (b : Nat) (rest : List Nat) (h1 : 0x70 ≤ b) (h2 : b ≤ 0x8f) :
    decode (b :: rest)
      = bindRead (read_sleb128 rest)
          (fun p => DOut.ok (1 + p.1) (Op.BReg (b - 0x70) p.2)) := by
  interval_cases b <;> rfl

theorem chunksWF_cons {c : List Nat} {cs : List (List Nat)} {rest : List Nat}
    (h : chunksWF (c :: cs) rest = true) :
    (∃ op, decode rest = DOut.ok c.length op) ∧
      chunksWF cs (rest.drop c.length) = true := by
  unfold chunksWF at h
  rw [Bool.and_eq_true] at h
  obtain ⟨h1, h2⟩ := h
  refine ⟨?_, h2⟩
  rcases hd : decode rest with ⟨sz, op2⟩ | ⟨e⟩ | _ <;> rw [hd] at h1
  · exact ⟨op2, by rw [of_decide_eq_true h1]⟩
  · cases h1
  · cases h1

theorem chunksWF_mem_pos : ∀ (chunks : List (List Nat)) (rest : List Nat),
    chunksWF chunks rest = true → ∀ c ∈ chunks, 1 ≤ c.length := by
  intro chunks
  induction chunks with
  | nil =>
    intro rest h c hc
    cases hc
  | cons c cs ih =>
    intro rest h d hd
    obtain ⟨⟨op2, h1⟩, h2⟩ := chunksWF_cons h
    rcases List.mem_cons.mp hd with rfl | hd
    · exact (decode_size_eq h1).1
    · exact ih _ h2 d hd

theorem chunksWF_length_le : ∀ (chunks : List (List Nat)) (rest : List Nat),
    chunksWF chunks rest = true → chunks.length ≤ rest.length := by
  intro chunks
  induction chunks with
  | nil =>
    intro rest h
    simp
  | cons c cs ih =>
    intro rest h
    obtain ⟨⟨op2, h1⟩, h2⟩ := chunksWF_cons h
    have hp : 1 ≤ c.length := (decode_size_eq h1).1
    have hne : rest ≠ [] := decode_ok_ne_nil h1
    have h3 := ih _ h2
    have h4 := List.length_drop c.length rest
    have h5 : rest.length ≠ 0 := fun e => hne (List.length_eq_zero.mp e)
    rw [h4] at h3
    simp only [List.length_cons]
    omega

theorem chunkOffsets_length : ∀ (chunks : List (List Nat)) (pc : Nat),
    (chunkOffsets chunks pc).length = chunks.length := by
  intro chunks
  induction chunks with
  | nil => intro pc; rfl
  | cons c cs ih => intro pc; simp [chunkOffsets, ih]

theorem chunkOffsets_chain : ∀ (chunks : List (List Nat)) (pc : Nat),
    (∀ c ∈ chunks, 1 ≤ c.length) →
    List.Chain' (fun a b => a < b) (chunkOffsets chunks pc) := by
  intro chunks
  induction chunks with
  | nil =>
    intro pc h
    simp [chunkOffsets]
  | cons c cs ih =>
    intro pc h
    cases cs with
    | nil => simp [chunkOffsets]
    | cons c2 cs2 =>
      have hc : 1 ≤ c.length := h c (by simp)
      have htail := ih (pc + c.length) (fun d hd => h d (List.mem_cons_of_mem _ hd))
      simp only [chunkOffsets] at htail ⊢
      rw [List.chain'_cons]
      exact ⟨by omega, htail⟩

theorem chunkOffsets_getLast : ∀ (chunks : List (List Nat)) (pc : Nat),
    chunks ≠ [] →
    ∃ off c, (chunkOffsets chunks pc).getLast? = some off ∧
      chunks.getLast? = some c ∧ off + c.length = pc + chunks.flatten.length := by
  intro chunks
  induction chunks with
  | nil =>
    intro pc h
    exact absurd rfl h
  | cons c cs ih =>
    intro pc _
    cases cs with
    | nil =>
      refine ⟨pc, c, rfl, rfl, ?_⟩
      simp
    | cons c2 cs2 =>
      obtain ⟨off, cl, h1, h2, h3⟩ := ih (pc + c.length) (by simp)
      refine ⟨off, cl, ?_, ?_, ?_⟩
      · rw [show chunkOffsets (c :: c2 :: cs2) pc
            = pc :: chunkOffsets (c2 :: cs2) (pc + c.length) from rfl]
        rw [show chunkOffsets (c2 :: cs2) (pc + c.length)
            = (pc + c.length) :: chunkOffsets cs2 (pc + c.length + c2.length) from rfl]
          at h1 ⊢
        rw [List.getLast?_cons_cons]
        exact h1
      · rw [List.getLast?_cons_cons]
        exact h2
      · rw [show (c :: c2 :: cs2).flatten = c ++ (c2 :: cs2).flatten from rfl,
          List.length_append]
        omega

theorem disasmAux_spec : ∀ (chunks : List (List Nat)) (buf : List Nat) (pc fuel : Nat),
    chunksWF chunks (buf.drop pc) = true →
    chunks.length < fuel →
    ∃ ops : List Op,
      disasmAux fuel buf pc = some ((chunkOffsets chunks pc).zip ops) ∧
      ops.length = chunks.length := by
  intro chunks
  induction chunks with
  | nil =>
    intro buf pc fuel h hf
    have h2 : (buf.drop pc).isEmpty = true := h
    have he : buf.drop pc = [] := List.isEmpty_iff.mp h2
    have hle : buf.length ≤ pc := by
      have hl := List.length_drop pc buf
      rw [he] at hl
      simp only [List.length_nil] at hl
      omega
    rcases fuel with _ | fuel
    · omega
    · refine ⟨[], ?_, rfl⟩
      unfold disasmAux
      rw [if_pos hle]
      rfl
  | cons c cs ih =>
    intro buf pc fuel h hf
    obtain ⟨⟨op, hd⟩, hrest⟩ := chunksWF_cons h
    have hpos : 1 ≤ c.length := (decode_size_eq hd).1
    have hne : buf.drop pc ≠ [] := decode_ok_ne_nil hd
    have hlt : pc < buf.length := by
      have h1 := List.length_drop pc buf
      have h2 : (buf.drop pc).length ≠ 0 := fun e => hne (List.length_eq_zero.mp e)
      omega
    rcases fuel with _ | fuel
    · omega
    · have hdrop : buf.drop (pc + c.length) = (buf.drop pc).drop c.length := by
        rw [List.drop_drop]
      obtain ⟨ops, hrec, hlen⟩ := ih buf (pc + c.length) fuel
        (by rw [hdrop]; exact hrest)
        (by simp only [List.length_cons] at hf; omega)
      refine ⟨op :: ops, ?_, by simp [hlen]⟩
      unfold disasmAux
      rw [if_neg (by omega)]
      simp only [hd, hrec]
      simp [chunkOffsets]

theorem mnem_eq_mnemOfIdx (a : Op) : a.mnem = mnemOfIdx a.ctorIdx := by
  cases a <;> rfl

/-! ## The claims -/

/-- Claim C1 (code bug): the spec requires a `Truncated` error, distinct
from the unknown-opcode error, whenever a buffer is too short for a
mandatory operand, and forbids a panic; the code instead aborts. On
`[0x0a]` (const2u with no operand bytes), on `[0x03]` (addr missing its
eight value bytes) and on `[0x28]` (bra missing its 16-bit offset) the
decoder panics — no `Truncated` variant even exists in the error type. -/
theorem truncated_fixed_operand_panics :
    decode [0x0a] = DOut.panic ∧ decode [0x03] = DOut.panic ∧
      decode [0x28] = DOut.panic :=
  ⟨rfl, rfl, rfl⟩

/-- Claim C2 (code bug): the spec's vectors say `decode [0x23, 0x05]`
is `Ok((2, PlusConst 5))` and `decode [0x70, 0x7f]` is
`Ok((2, BReg(0, -1)))`; the code instead aborts on both, because the
eagerly built expect message of the LEB128 readers slices ten bytes out
of a shorter remainder. -/
theorem spec_vectors_plus_uconst_breg_panic :
    decode [0x23, 0x05] = DOut.panic ∧ decode [0x70, 0x7f] = DOut.panic :=
  ⟨rfl, rfl⟩

/-- Claim C3 counterexample: on `[0x94, 0x03]` (deref_size with size 3,
outside the permitted set) the decoder panics through its assert instead
of returning an invalid-operand-size error, refuting the claim's "never
panics". -/
theorem derefsize_invalid_size_panics_at_3 :
    decode [0x94, 0x03] = DOut.panic := rfl

/-- Claim C3 as amended: when the one-byte size operand of `deref_size`
is outside {1, 2, 4, 8}, `decode` never silently accepts it — but it
panics via `assert!` rather than returning an invalid-operand-size
error (the error type has no such variant). -/
theorem derefsize_invalid_size_never_accepted (v : Nat) (rest : List Nat)
    (h : v ∉ ([1, 2, 4, 8] : List Nat)) :
    decode (0x94 :: v :: rest) = DOut.panic := by
  have step : decode (0x94 :: v :: rest)
      = (if v ∈ ([1, 2, 4, 8] : List Nat) then DOut.ok 2 (Op.DerefSize v)
         else DOut.panic) := rfl
  rw [step, if_neg h]

/-- Witness for the amended claim C3 at size value 5. -/
theorem derefsize_invalid_size_never_accepted_witness :
    (5 : Nat) ∉ ([1, 2, 4, 8] : List Nat) ∧ decode [0x94, 5] = DOut.panic :=
  ⟨by decide, derefsize_invalid_size_never_accepted 5 [] (by decide)⟩

/-- Claim C4: for every leading byte outside the supported opcode set
(whatever follows it), `decode` returns the unknown-opcode error
carrying exactly that byte, and nothing worse happens. -/
theorem unknown_opcode_err (b : Nat) (rest : List Nat)
    (hb : b < 0x100) (hs : supported b = false) :
    decode (b :: rest) = DOut.err (DwarfDisError.Decode b) := by
  interval_cases b <;> first | rfl | exact absurd hs (by decide)

/-- Witness for claim C4 at leading byte 0xFF. -/
theorem unknown_opcode_err_witness :
    (0xff : Nat) < 0x100 ∧ supported 0xff = false ∧
      decode [0xff] = DOut.err (DwarfDisError.Decode 0xff) :=
  ⟨by decide, by decide, unknown_opcode_err 0xff [] (by decide) (by decide)⟩

/-- Claim C5: every successful decode consumes exactly one byte for the
opcode plus the bytes of its mandatory operands (8 for addr, the fixed
width for const1u..const8s, 2 for bra and skip, 1 for pick and
deref_size, the LEB128 length(s) for the variable-length operands, and
none for operand-less, literal and register opcodes); in particular no
successful decode consumes zero bytes. -/
theorem decode_consumed_size (buf : List Nat) (sz : Nat) (op : Op)
    (h : decode buf = DOut.ok sz op) :
    1 ≤ sz ∧ sz = 1 + operandBytes op (buf.drop 1) :=
  decode_size_eq h

/-- Witness for claim C5: decoding addr from a nine-byte buffer consumes
nine bytes. -/
theorem decode_consumed_size_witness :
    1 ≤ 9 ∧ 9 = 1 + operandBytes (Op.Addr 1) ([0x03, 1, 0, 0, 0, 0, 0, 0, 0].drop 1) :=
  decode_consumed_size [0x03, 1, 0, 0, 0, 0, 0, 0, 0] 9 (Op.Addr 1) (by decide)

/-- Claim C6 (code bug): the claim's base-register clause says any
`b` in 0x70..0x8f followed by a well-formed SLEB128 yields
`BReg (b - 0x70, offset)`; on `[0x71, 0x7f]` (breg1 with the one-byte
SLEB128 encoding of -1) the code instead aborts in the eager ten-byte
slice of the expect message. The literal and register clauses of the
claim do hold. -/
theorem breg_wellformed_sleb_short_panics :
    decode [0x71, 0x7f] = DOut.panic := rfl

/-- Claim C7: over a buffer that is the concatenation of well-formed
instructions, the driver yields one record per instruction; the offsets
are exactly the chunk start offsets, strictly increasing, beginning at
0, each successive offset differing by the previous instruction's size,
and the final offset plus its instruction's size equals the buffer
length. -/
theorem disassemble_chunks (chunks : List (List Nat))
    (h : chunksWF chunks chunks.flatten = true) :
    ∃ recs : List (Nat × Op),
      disassemble chunks.flatten = some recs ∧
      recs.length = chunks.length ∧
      recs.map Prod.fst = chunkOffsets chunks 0 ∧
      List.Chain' (fun a b => a < b) (recs.map Prod.fst) ∧
      (chunks ≠ [] → (recs.map Prod.fst).head? = some 0) ∧
      (chunks ≠ [] → ∃ off c, (recs.map Prod.fst).getLast? = some off ∧
        chunks.getLast? = some c ∧ off + c.length = chunks.flatten.length) := by
  have h0 : chunksWF chunks (chunks.flatten.drop 0) = true := by
    rw [List.drop_zero]
    exact h
  have hlen := chunksWF_length_le chunks chunks.flatten h
  obtain ⟨ops, hrun, hops⟩ :=
    disasmAux_spec chunks chunks.flatten 0 (chunks.flatten.length + 1) h0 (by omega)
  have hrun2 : disassemble chunks.flatten = some ((chunkOffsets chunks 0).zip ops) := hrun
  have hpos := chunksWF_mem_pos chunks chunks.flatten h
  have holen := chunkOffsets_length chunks 0
  have hmap : ((chunkOffsets chunks 0).zip ops).map Prod.fst = chunkOffsets chunks 0 :=
    List.map_fst_zip _ _ (by rw [holen, hops])
  refine ⟨(chunkOffsets chunks 0).zip ops, hrun2, ?_, hmap, ?_, ?_, ?_⟩
  · rw [List.length_zip, holen, hops]
    exact min_self _
  · rw [hmap]
    exact chunkOffsets_chain chunks 0 hpos
  · intro hne
    rw [hmap]
    cases chunks with
    | nil => exact absurd rfl hne
    | cons c cs => rfl
  · intro hne
    rw [hmap]
    obtain ⟨off, c, h1, h2, h3⟩ := chunkOffsets_getLast chunks 0 hne
    exact ⟨off, c, h1, h2, by omega⟩

/-- Witness for claim C7 on the two-instruction buffer
nop ++ const1u 42. -/
theorem disassemble_chunks_witness :
    chunksWF [[0x96], [0x08, 0x2a]] (List.flatten [[0x96], [0x08, 0x2a]]) = true ∧
      ∃ recs : List (Nat × Op),
        disassemble (List.flatten [[0x96], [0x08, 0x2a]]) = some recs ∧
        recs.length = ([[0x96], [0x08, 0x2a]] : List (List Nat)).length ∧
        recs.map Prod.fst = chunkOffsets [[0x96], [0x08, 0x2a]] 0 ∧
        List.Chain' (fun a b => a < b) (recs.map Prod.fst) ∧
        (([[0x96], [0x08, 0x2a]] : List (List Nat)) ≠ [] →
          (recs.map Prod.fst).head? = some 0) ∧
        (([[0x96], [0x08, 0x2a]] : List (List Nat)) ≠ [] → ∃ off c,
          (recs.map Prod.fst).getLast? = some off ∧
          ([[0x96], [0x08, 0x2a]] : List (List Nat)).getLast? = some c ∧
          off + c.length = (List.flatten [[0x96], [0x08, 0x2a]]).length) :=
  ⟨by decide, disassemble_chunks [[0x96], [0x08, 0x2a]] (by decide)⟩

/-- Claim C8 counterexample: `decode [0x95, 0x04]` (xderef_size, size 4)
is the unknown-opcode error for byte 0x95, not `Ok((2, DerefSize 4))`. -/
theorem xderef_size_unknown_at_4 :
    decode [0x95, 0x04] ≠ DOut.ok 2 (Op.DerefSize 4) ∧
      decode [0x95, 0x04] = DOut.err (DwarfDisError.Decode 0x95) :=
  ⟨by decide, rfl⟩

/-- Claim C8 as amended: xderef_size (0x95) is not decoded like
deref_size — the decoder has no arm for it and returns the
unknown-opcode error carrying 0x95; only deref_size (0x94) yields
`DerefSize` with two bytes consumed. -/
theorem xderef_unknown_deref_ok (v : Nat) (rest : List Nat)
    (h : v ∈ ([1, 2, 4, 8] : List Nat)) :
    decode (0x95 :: v :: rest) = DOut.err (DwarfDisError.Decode 0x95) ∧
      decode (0x94 :: v :: rest) = DOut.ok 2 (Op.DerefSize v) := by
  refine ⟨rfl, ?_⟩
  have step : decode (0x94 :: v :: rest)
      = (if v ∈ ([1, 2, 4, 8] : List Nat) then DOut.ok 2 (Op.DerefSize v)
         else DOut.panic) := rfl
  rw [step, if_pos h]

/-- Witness for the amended claim C8 at size value 4. -/
theorem xderef_unknown_deref_ok_witness :
    (4 : Nat) ∈ ([1, 2, 4, 8] : List Nat) ∧
      (decode [0x95, 4] = DOut.err (DwarfDisError.Decode 0x95) ∧
        decode [0x94, 4] = DOut.ok 2 (Op.DerefSize 4)) :=
  ⟨by decide, xderef_unknown_deref_ok 4 [] (by decide)⟩

/-- Claim C9: the mnemonic of an instruction depends only on its variant
tag, never on the operand values the variant carries. -/
theorem mnem_depends_only_on_ctor (a b : Op) (h : a.ctorIdx = b.ctorIdx) :
    a.mnem = b.mnem := by
  rw [mnem_eq_mnemOfIdx a, mnem_eq_mnemOfIdx b, h]

/-- Witness for claim C9: two addr instructions with different operands
share a mnemonic. -/
theorem mnem_depends_only_on_ctor_witness :
    (Op.Addr 0).ctorIdx = (Op.Addr 1).ctorIdx ∧ (Op.Addr 0).mnem = (Op.Addr 1).mnem :=
  ⟨rfl, mnem_depends_only_on_ctor (Op.Addr 0) (Op.Addr 1) rfl⟩

/-- Claim C10: for every opcode with a ULEB128 or SLEB128 operand
(constu, consts, plus_uconst, breg0..breg31, regx, bregx), whenever
fewer than ten bytes remain after the opcode byte — even if they form a
complete, valid LEB128 encoding — `decode` panics, because the expect
message built for the LEB128 readers unconditionally slices the first
ten bytes of the remaining input. -/
theorem leb_short_buffer_panics (b : Nat) (rest : List Nat)
    (hb : b = 0x10 ∨ b = 0x11 ∨ b = 0x23 ∨ (0x70 ≤ b ∧ b ≤ 0x8f) ∨ b = 0x90 ∨ b = 0x92)
    (hlen : rest.length < 10) :
    decode (b :: rest) = DOut.panic := by
  have hu := read_uleb128_short hlen
  have hs := read_sleb128_short hlen
  rcases hb with rfl | rfl | rfl | ⟨hr1, hr2⟩ | rfl | rfl
  · rw [show decode (0x10 :: rest)
        = bindRead (read_uleb128 rest) (fun p => DOut.ok (1 + p.1) (Op.Constu p.2)) from rfl,
      hu]
    rfl
  · rw [show decode (0x11 :: rest)
        = bindRead (read_sleb128 rest) (fun p => DOut.ok (1 + p.1) (Op.Consts p.2)) from rfl,
      hs]
    rfl
  · rw [show decode (0x23 :: rest)
        = bindRead (read_uleb128 rest) (fun p => DOut.ok (1 + p.1) (Op.PlusConst p.2)) from rfl,
      hu]
    rfl
  · rw [decode_breg_eq b rest hr1 hr2, hs]
    rfl
  · rw [show decode (0x90 :: rest)
        = bindRead (read_uleb128 rest) (fun p => DOut.ok (1 + p.1) (Op.RegX p.2)) from rfl,
      hu]
    rfl
  · rw [show decode (0x92 :: rest)
        = bindRead (read_uleb128 rest) (fun p =>
            bindRead (read_sleb128 (rest.drop p.1)) (fun q =>
              DOut.ok (1 + p.1 + q.1) (Op.BRegX p.2 q.2))) from rfl,
      hu]
    rfl

/-- Witness for claim C10: plus_uconst followed by the single-byte
valid ULEB128 encoding of 5 still panics. -/
theorem leb_short_buffer_panics_witness :
    ((0x23 : Nat) = 0x10 ∨ (0x23 : Nat) = 0x11 ∨ (0x23 : Nat) = 0x23 ∨
      ((0x70 : Nat) ≤ 0x23 ∧ (0x23 : Nat) ≤ 0x8f) ∨ (0x23 : Nat) = 0x90 ∨
      (0x23 : Nat) = 0x92) ∧
    ([0x05] : List Nat).length < 10 ∧
    decode [0x23, 0x05] = DOut.panic :=
  ⟨by decide, by decide, leb_short_buffer_panics 0x23 [0x05] (by decide) (by decide)⟩

end DwarfDis
